import Mathlib

/-!
Verification development for `langSwitch-v1.5.py`, a Windows language-pack
deployment tool.  The definitions below are a shallow embedding of the
program's core: percent-decoding and lowercasing of manifest lines, the
artifact matcher of `main` (the loop building `found`), the transfer loop
(`download_file` and the appx/cab partition), and the post-download
orchestration (DISM cabinet installs, Appx provisioning, locale application)
with the fatal-halt semantics of `run` / `fatal` / `pause_exit`.

External effects are modelled explicitly: the filesystem is a map from path
strings to optional file contents, the network is a function from URLs to
contents, and external process invocation is a function from an argv list to
an exit code.  The process's own exit code is `0` for a normal completion
and `1` for a `fatal` halt (the default `code=1` of `fatal`).
-/

namespace LangSwitch

/-- Value of a hexadecimal digit character, `none` when the character is not
a hex digit.  Used by percent-decoding. -/
def hexVal? (c : Char) : Option Nat :=
  if '0' ≤ c ∧ c ≤ '9' then some (c.toNat - 48)
  else if 'a' ≤ c ∧ c ≤ 'f' then some (c.toNat - 87)
  else if 'A' ≤ c ∧ c ≤ 'F' then some (c.toNat - 55)
  else none

/-- Percent-decoding on a character list: a valid escape `%XY` becomes the
character with code `16*X + Y`; an invalid escape is kept verbatim.  This
models `urllib.parse.unquote` on the ASCII range (the program's manifests
and patterns are ASCII; multi-byte UTF-8 escapes are out of scope). -/
def unquoteChars : List Char → List Char
  | [] => []
  | '%' :: a :: b :: rest =>
    match hexVal? a, hexVal? b with
    | some hi, some lo => Char.ofNat (16 * hi + lo) :: unquoteChars rest
    | _, _ => '%' :: unquoteChars (a :: b :: rest)
  | c :: rest => c :: unquoteChars rest

/-- `urllib.parse.unquote` on strings (ASCII model). -/
def pyUnquote (s : String) : String := ⟨unquoteChars s.data⟩

/-- ASCII lowercasing of one character, as Python's `str.lower` acts on the
ASCII range. -/
def lowerChar (c : Char) : Char :=
  if 65 ≤ c.toNat ∧ c.toNat ≤ 90 then Char.ofNat (c.toNat + 32) else c

/-- Python's `str.lower` (ASCII model). -/
def pyLower (s : String) : String := ⟨s.data.map lowerChar⟩

/-- The decoded lowercase form of a manifest line: `unquote(line).lower()`,
computed as `u = unquote(line); l = u.lower()` in `main`. -/
def decodeLower (s : String) : String := pyLower (pyUnquote s)

/-- Whether `needle` occurs as a contiguous sublist of `hay`. -/
def subInfix (needle : List Char) : List Char → Bool
  | [] => needle.isEmpty
  | c :: t => needle.isPrefixOf (c :: t) || subInfix needle t

/-- Python's `needle in hay` substring test. -/
def containsSub (hay needle : String) : Bool := subInfix needle.data hay.data

/-- Python's `hay.endswith(suffix)`. -/
def endsWith (hay suffix : String) : Bool := suffix.data.isSuffixOf hay.data

/-- `is_winpe(l)`: the WinPE marker test applied to a decoded lowercase
line. -/
def is_winpe (l : String) : Bool :=
  containsSub l ("winpe") || containsSub l ("windows preinstallation environment")

/-- `FOD_FEATURE_KEYWORDS`: the fixed feature-category substrings of the
feature-on-demand rule. -/
def FOD_FEATURE_KEYWORDS : List String :=
  [("languagefeatures-basic-"),
   ("languagefeatures-ocr-"),
   ("languagefeatures-texttospeech-"),
   ("languagefeatures-fonts-")]

/-- The inner keyword loop of the feature-on-demand rule: scan the keyword
list in order and stop at the first keyword contained in `l` (the loop in
`main` appends once and `break`s). -/
def fodFirstHit (l : String) : List String → Bool
  | [] => false
  | k :: ks => if containsSub l k then true else fodFirstHit l ks

/-- The artifact categories of the install plan.  `LanguageExperiencePackage`
and `LicenseFile` record which suffix fired in the experience-pack rule;
`ExperienceCab` is the client-language-pack cabinet rule; `FeatureCab` is
the feature-on-demand rule. -/
inductive ArtifactKind where
  | LanguageExperiencePackage
  | LicenseFile
  | ExperienceCab
  | FeatureCab
deriving DecidableEq

/-- The per-line decision of the matcher loop in `main` (lines 424-448):
`none` when the line is skipped, `some k` when it is appended to `found`,
with `k` recording the rule that fired.  The guards are tested in the
source's order: WinPE exclusion, the `/localexperiencepack/{lang}/` segment
(which `continue`s whether or not a suffix matches), the client
language-pack cabinet substring, then the feature-on-demand conditions with
the first-hit keyword scan. -/
def classify? (lang archPath archToken : String) (line : String) : Option ArtifactKind :=
  let l := decodeLower line
  if is_winpe l then none
  else if containsSub l ("/localexperiencepack/" ++ lang ++ "/") then
    if endsWith l (".appx") then some ArtifactKind.LanguageExperiencePackage
    else if endsWith l ("license.xml") then some ArtifactKind.LicenseFile
    else none
  else if containsSub l ("microsoft-windows-client-language-pack_" ++ archPath ++ "_" ++ lang ++ ".cab") then
    some ArtifactKind.ExperienceCab
  else if containsSub l ("microsoft-windows-languagefeatures-")
      && containsSub l ("-" ++ lang ++ "-package")
      && containsSub l ("~" ++ archToken ++ "~~.cab") then
    if fodFirstHit l FOD_FEATURE_KEYWORDS then some ArtifactKind.FeatureCab else none
  else none

/-- Whether the matcher loop appends `line` to `found`. -/
def keepLine (lang archPath archToken line : String) : Bool :=
  (classify? lang archPath archToken line).isSome

/-- The `found` list built by the matcher loop: the manifest lines the
selector keeps, in manifest order. -/
def matchFound (lines : List String) (lang archPath archToken : String) : List String :=
  lines.filter (fun line => keepLine lang archPath archToken line)

/-- The typed install plan: each kept line paired with the rule that kept
it. -/
def installPlan (lines : List String) (lang archPath archToken : String) :
    List (String × ArtifactKind) :=
  lines.filterMap (fun line => (classify? lang archPath archToken line).map (fun k => (line, k)))

/-- The final path component of a slash-separated path, as
`Path(p).name` behaves on the URL paths the tool consumes (no trailing
slash). -/
def lastSegment (cs : List Char) : List Char :=
  cs.foldl (fun acc c => if c = '/' then [] else acc ++ [c]) []

/-- `Path(p).name` for the decoded URLs handled by the tool. -/
def fileName (p : String) : String := ⟨lastSegment p.data⟩

/-- The destination test of the transfer loop (line 461):
`name.lower().endswith(".appx") or name.lower() == "license.xml"` with
`name = Path(unquote(url)).name`. -/
def isAppxFile (url : String) : Bool :=
  let name := fileName (pyUnquote url)
  endsWith (pyLower name) (".appx") || pyLower name == ("license.xml")

/-- Destination path of a planned URL: `APPX_DIR / name` for appx/license
artifacts, `CAB_DIR / name` for cabinets, relative to the download root. -/
def destFor (url : String) : String :=
  (if isAppxFile url then ("downloads/appx/") else ("downloads/cab/")) ++
    fileName (pyUnquote url)

/-- `download_file(url, dest)`: if the destination exists, return at once
(no network, filesystem unchanged); otherwise fetch the URL and write the
destination.  The second component counts network transfers opened (0 or
1). -/
def download_file (net : String → String) (fs : String → Option String)
    (url dest : String) : ((String → Option String) × Nat) :=
  match fs dest with
  | some _ => (fs, 0)
  | none => ((fun p => if p = dest then some (net url) else fs p), 1)

/-- Result of the transfer loop: final filesystem, number of network
transfers, and the `appx_files` / `cab_files` destination lists. -/
structure TransferOut where
  fs : String → Option String
  transfers : Nat
  appx : List String
  cab : List String

/-- The transfer loop of `main` (lines 456-468): each planned URL is
downloaded to its kind-derived destination and recorded in `appx_files` or
`cab_files`, sequentially, in plan order. -/
def transferAll (net : String → String) :
    (String → Option String) → List String → TransferOut
  | fs, [] => { fs := fs, transfers := 0, appx := [], cab := [] }
  | fs, url :: rest =>
    let dest := destFor url
    let step := download_file net fs url dest
    let out := transferAll net step.1 rest
    if isAppxFile url then
      { fs := out.fs, transfers := step.2 + out.transfers,
        appx := dest :: out.appx, cab := out.cab }
    else
      { fs := out.fs, transfers := step.2 + out.transfers,
        appx := out.appx, cab := dest :: out.cab }

/-- The DISM invocation for one cabinet (lines 478-484). -/
def dismCmd (cab : String) : List String :=
  [("dism"), ("/Online"), ("/Add-Package"), "/PackagePath:" ++ cab, ("/NoRestart")]

/-- The provisioning invocation used when a license file is present
(lines 493-498). -/
def provisionLicenseCmd (lep lic : String) : List String :=
  [("powershell"), ("-NoProfile"), ("-Command"),
   "Add-AppxProvisionedPackage -Online -PackagePath \x27" ++ lep ++
     "\x27 -LicensePath \x27" ++ lic ++ "\x27"]

/-- The provisioning invocation used when no license file is present
(lines 500-505). -/
def provisionSkipCmd (lep : String) : List String :=
  [("powershell"), ("-NoProfile"), ("-Command"),
   "Add-AppxProvisionedPackage -Online -PackagePath \x27" ++ lep ++ "\x27 -SkipLicense"]

/-- The PowerShell command string built by the locale applier
(lines 515-541): extend-and-preserve, extend-and-rebuild, or replace. -/
def psLocale (lang : String) (extend preserve : Bool) : String :=
  if extend then
    if preserve then
      "$list = Get-WinUserLanguageList; if ($list.LanguageTag -notcontains \x27" ++ lang ++
        "\x27) \x7b $list.Add(\x27" ++ lang ++
        "\x27) \x7d; Set-WinUserLanguageList $list -Force; Set-WinUILanguageOverride -Language " ++
        lang ++ "; Set-WinSystemLocale -SystemLocale " ++ lang
    else
      "$list = Get-WinUserLanguageList | Where-Object \x7b $_.LanguageTag -ne \x27" ++ lang ++
        "\x27 \x7d; $new = New-WinUserLanguageList \x27" ++ lang ++
        "\x27; $new.AddRange($list); Set-WinUserLanguageList $new -Force; Set-WinUILanguageOverride -Language " ++
        lang ++ "; Set-WinSystemLocale -SystemLocale " ++ lang
  else
    "Set-WinUILanguageOverride -Language " ++ lang ++
      "; $list = New-WinUserLanguageList \x27" ++ lang ++
      "\x27; Set-WinUserLanguageList $list -Force; Set-WinSystemLocale -SystemLocale " ++ lang

/-- The user-locale invocation (lines 543-548). -/
def localeCmd (lang : String) (extend preserve : Bool) : List String :=
  [("powershell"), ("-NoProfile"), ("-ExecutionPolicy"), ("Bypass"), ("-Command"),
   psLocale lang extend preserve]

/-- The welcome-screen PowerShell script (lines 558-575): emit the
globalization-services descriptor for the current user and the system
account and hand it to `intl.cpl`. -/
def psLogin (lang : String) : String :=
  "\n$xml = @\"\n<gs:GlobalizationServices xmlns:gs=\"urn:longhornGlobalizationUnattend\">\n  <gs:UserList>\n    <gs:User UserID=\"Current\"/>\n    <gs:User UserID=\"System\"/>\n  </gs:UserList>\n  <gs:UILanguagePreferences>\n    <gs:UILanguage Value=\"" ++
    lang ++
    "\"/>\n  </gs:UILanguagePreferences>\n</gs:GlobalizationServices>\n\"@\n\n$path = \"$env:TEMP\\intl.xml\"\n$xml | Out-File -Encoding UTF8 $path\n\ncontrol.exe \"intl.cpl,,/f:$path\"\n"

/-- The welcome-screen locale invocation (lines 578-583). -/
def loginCmd (lang : String) : List String :=
  [("powershell"), ("-NoProfile"), ("-ExecutionPolicy"), ("Bypass"), ("-Command"),
   psLogin lang]

/-- The first entry of `appx_files` whose lowercased file name contains
`languageexperiencepack` (line 487). -/
def lepOf (appx : List String) : Option String :=
  appx.find? (fun p => containsSub (pyLower (fileName p)) ("languageexperiencepack"))

/-- The first entry of `appx_files` whose lowercased file name is exactly
`license.xml` (line 488). -/
def licOf (appx : List String) : Option String :=
  appx.find? (fun p => pyLower (fileName p) == ("license.xml"))

/-- The provisioning invocations of the experience-package stage
(lines 490-507): one command when an experience pack is found (with or
without a license), none otherwise (the stage logs a warning and the run
proceeds). -/
def provCmds (appx : List String) : List (List String) :=
  match lepOf appx with
  | none => []
  | some lep =>
    match licOf appx with
    | some lic => [provisionLicenseCmd lep lic]
    | none => [provisionSkipCmd lep]

/-- The external invocations a non-dry run issues after the transfers, in
program order: one DISM invocation per cabinet, then the provisioning
stage, then the user-locale and welcome-screen invocations. -/
def plannedCmds (cab appx : List String) (lang : String) (extend preserve : Bool) :
    List (List String) :=
  cab.map dismCmd ++ provCmds appx ++ [localeCmd lang extend preserve, loginCmd lang]

/-- Sequential execution with the fatal-halt semantics of `run`: each
command is invoked in order; a non-zero exit stops the sequence at once
(`fatal` exits the process).  Returns the invocations actually issued and
whether the whole sequence succeeded. -/
def runSeq (exec : List String → Nat) : List (List String) → List (List String) × Bool
  | [] => ([], true)
  | c :: cs =>
    if exec c = 0 then
      let r := runSeq exec cs
      (c :: r.1, r.2)
    else ([c], false)

/-- Observable outcome of a run from resolution onward: final filesystem,
network transfers, external invocations issued, and the process exit code
(`0` normal completion, `1` a `fatal` halt). -/
structure MainOut where
  fs : String → Option String
  transfers : Nat
  invoked : List (List String)
  exit : Nat

/-- The run from resolution onward (`main`, lines 422 to the end): build
`found`; an empty `found` is fatal before any download; otherwise transfer
everything; a dry run then halts normally with no invocation; otherwise
the planned invocations execute sequentially with fatal-halt semantics. -/
def mainRun (net : String → String) (exec : List String → Nat)
    (fs : String → Option String) (lines : List String)
    (lang archPath archToken : String) (dryRun extend preserve : Bool) : MainOut :=
  let found := matchFound lines lang archPath archToken
  if found.isEmpty then
    { fs := fs, transfers := 0, invoked := [], exit := 1 }
  else
    let t := transferAll net fs found
    if dryRun then
      { fs := t.fs, transfers := t.transfers, invoked := [], exit := 0 }
    else
      let r := runSeq exec (plannedCmds t.cab t.appx lang extend preserve)
      { fs := t.fs, transfers := t.transfers, invoked := r.1,
        exit := if r.2 then 0 else 1 }

/-- The transfer stage of a run, as a function of the raw inputs. -/
def transferOut (net : String → String) (fs : String → Option String)
    (lines : List String) (lang archPath archToken : String) : TransferOut :=
  transferAll net fs (matchFound lines lang archPath archToken)

/-! ### General lemmas about the embedded operations -/

theorem fodFirstHit_of_mem {l k : String} {ks : List String} (hk : k ∈ ks)
    (hc : containsSub l k = true) : fodFirstHit l ks = true := by
  induction ks with
  | nil => cases hk
  | cons a t ih =>
    rcases List.mem_cons.mp hk with h | h
    · subst h; simp [fodFirstHit, hc]
    · by_cases ha : containsSub l a = true
      · simp [fodFirstHit, ha]
      · simp [fodFirstHit, ha, ih h]

theorem download_file_exists {net : String → String} {fs : String → Option String}
    {url dest c : String} (h : fs dest = some c) :
    download_file net fs url dest = (fs, 0) := by
  simp [download_file, h]

theorem download_file_isSome_dest (net : String → String) (fs : String → Option String)
    (url dest : String) : ((download_file net fs url dest).1 dest).isSome := by
  cases h : fs dest with
  | some c => simp [download_file, h]
  | none => simp [download_file, h]

theorem download_file_preserves {net : String → String} {fs : String → Option String}
    {url dest p : String} (h : (fs p).isSome) :
    ((download_file net fs url dest).1 p).isSome := by
  cases hd : fs dest with
  | some c => simpa [download_file, hd] using h
  | none =>
    by_cases hp : p = dest
    · simp [download_file, hd, hp]
    · simpa [download_file, hd, hp] using h

theorem transferAll_fs_cons (net : String → String) (fs : String → Option String)
    (url : String) (rest : List String) :
    (transferAll net fs (url :: rest)).fs =
      (transferAll net (download_file net fs url (destFor url)).1 rest).fs := by
  simp only [transferAll]
  split <;> rfl

theorem transferAll_transfers_cons (net : String → String) (fs : String → Option String)
    (url : String) (rest : List String) :
    (transferAll net fs (url :: rest)).transfers =
      (download_file net fs url (destFor url)).2 +
        (transferAll net (download_file net fs url (destFor url)).1 rest).transfers := by
  simp only [transferAll]
  split <;> rfl

theorem transferAll_preserves (net : String → String) (plan : List String) :
    ∀ fs p, (fs p).isSome → ((transferAll net fs plan).fs p).isSome := by
  induction plan with
  | nil => intro fs p h; simpa [transferAll] using h
  | cons url rest ih =>
    intro fs p h
    rw [transferAll_fs_cons]
    exact ih _ _ (download_file_preserves h)

theorem transferAll_sets (net : String → String) (plan : List String) :
    ∀ fs url, url ∈ plan → ((transferAll net fs plan).fs (destFor url)).isSome := by
  induction plan with
  | nil => intro fs url h; cases h
  | cons u rest ih =>
    intro fs url h
    rw [transferAll_fs_cons]
    rcases List.mem_cons.mp h with h | h
    · subst h
      exact transferAll_preserves net rest _ _ (download_file_isSome_dest net fs url (destFor url))
    · exact ih _ _ h

theorem transferAll_zero (net : String → String) (plan : List String) :
    ∀ fs, (∀ url ∈ plan, (fs (destFor url)).isSome) →
      (transferAll net fs plan).transfers = 0 := by
  induction plan with
  | nil => intro fs _; simp [transferAll]
  | cons u rest ih =>
    intro fs h
    obtain ⟨c, hc⟩ := Option.isSome_iff_exists.mp (h u (List.mem_cons_self u rest))
    rw [transferAll_transfers_cons, download_file_exists hc]
    simpa using ih fs (fun url hurl => h url (List.mem_cons_of_mem _ hurl))

theorem runSeq_all_zero {exec : List String → Nat} :
    ∀ cs, (∀ c ∈ cs, exec c = 0) → runSeq exec cs = (cs, true) := by
  intro cs
  induction cs with
  | nil => intro _; rfl
  | cons c t ih =>
    intro h
    simp [runSeq, h c (List.mem_cons_self c t),
      ih (fun x hx => h x (List.mem_cons_of_mem _ hx))]

theorem runSeq_stop {exec : List String → Nat} {c : List String} (hc : exec c ≠ 0) :
    ∀ pre post, (∀ a ∈ pre, exec a = 0) →
      runSeq exec (pre ++ c :: post) = (pre ++ [c], false) := by
  intro pre
  induction pre with
  | nil => intro post _; simp [runSeq, hc]
  | cons a t ih =>
    intro post h
    simp [runSeq, h a (List.mem_cons_self a t),
      ih post (fun x hx => h x (List.mem_cons_of_mem _ hx))]

theorem mainRun_run_eq (net : String → String) (exec : List String → Nat)
    (fs : String → Option String) (lines : List String)
    (lang archPath archToken : String) (extend preserve : Bool)
    (h : matchFound lines lang archPath archToken ≠ []) :
    mainRun net exec fs lines lang archPath archToken false extend preserve =
      { fs := (transferOut net fs lines lang archPath archToken).fs,
        transfers := (transferOut net fs lines lang archPath archToken).transfers,
        invoked := (runSeq exec (plannedCmds
          (transferOut net fs lines lang archPath archToken).cab
          (transferOut net fs lines lang archPath archToken).appx lang extend preserve)).1,
        exit := if (runSeq exec (plannedCmds
          (transferOut net fs lines lang archPath archToken).cab
          (transferOut net fs lines lang archPath archToken).appx lang extend preserve)).2
          then 0 else 1 } := by
  simp [mainRun, transferOut, List.isEmpty_iff, h]

/-! ### Claim theorems -/

/-- C2: a manifest line whose decoded lowercase form carries a WinPE marker
is never placed in the install plan, for any manifest and any selector. -/
theorem winpe_excluded (lines : List String) (lang archPath archToken line : String)
    (h : is_winpe (decodeLower line) = true) :
    line ∉ matchFound lines lang archPath archToken := by
  intro hmem
  have hk := (List.mem_filter.mp hmem).2
  simp [keepLine, classify?, h] at hk

/-- Witness for C2 at a concrete WinPE-flagged reference. -/
theorem winpe_excluded_witness :
    is_winpe (decodeLower ("https://host/files/WinPE-Setup-Package.cab")) = true ∧
      ("https://host/files/WinPE-Setup-Package.cab") ∉
        matchFound [("https://host/files/WinPE-Setup-Package.cab")]
          ("fr-fr") ("x64") ("amd64") :=
  ⟨by decide,
   winpe_excluded [("https://host/files/WinPE-Setup-Package.cab")]
     ("fr-fr") ("x64") ("amd64") ("https://host/files/WinPE-Setup-Package.cab") (by decide)⟩

/-- C10: a non-WinPE reference carrying the `/localexperiencepack/{lang}/`
segment but ending neither in `.appx` nor in `license.xml` is classified to
nothing and excluded from the plan — the segment branch consumes the
reference before the cabinet rules are ever consulted. -/
theorem lep_segment_consumes_reference (lines : List String)
    (lang archPath archToken line : String)
    (hwinpe : is_winpe (decodeLower line) = false)
    (hseg : containsSub (decodeLower line) ("/localexperiencepack/" ++ lang ++ "/") = true)
    (happx : endsWith (decodeLower line) (".appx") = false)
    (hlic : endsWith (decodeLower line) ("license.xml") = false) :
    classify? lang archPath archToken line = none ∧
      line ∉ matchFound lines lang archPath archToken := by
  have hc : classify? lang archPath archToken line = none := by
    simp [classify?, hwinpe, hseg, happx, hlic]
  refine ⟨hc, fun hmem => ?_⟩
  have hk := (List.mem_filter.mp hmem).2
  simp [keepLine, hc] at hk

/-- Witness for C10: a reference inside the experience-pack segment whose
decoded form even contains the client-language-pack cabinet substring is
still dropped. -/
theorem lep_segment_consumes_reference_witness :
    containsSub (decodeLower ("https://h/LocalExperiencePack/fr-fr/Microsoft-Windows-Client-Language-Pack_x64_fr-fr.notcab"))
        ("/localexperiencepack/" ++ ("fr-fr") ++ "/") = true ∧
      classify? ("fr-fr") ("x64") ("amd64")
        ("https://h/LocalExperiencePack/fr-fr/Microsoft-Windows-Client-Language-Pack_x64_fr-fr.notcab") = none ∧
      ("https://h/LocalExperiencePack/fr-fr/Microsoft-Windows-Client-Language-Pack_x64_fr-fr.notcab") ∉
        matchFound [("https://h/LocalExperiencePack/fr-fr/Microsoft-Windows-Client-Language-Pack_x64_fr-fr.notcab")]
          ("fr-fr") ("x64") ("amd64") := by
  refine ⟨by decide, ?_⟩
  have h := lep_segment_consumes_reference
    [("https://h/LocalExperiencePack/fr-fr/Microsoft-Windows-Client-Language-Pack_x64_fr-fr.notcab")]
    ("fr-fr") ("x64") ("amd64")
    ("https://h/LocalExperiencePack/fr-fr/Microsoft-Windows-Client-Language-Pack_x64_fr-fr.notcab")
    (by decide) (by decide) (by decide) (by decide)
  exact h

/-- C4: when the matcher keeps nothing, the run halts fatally (exit 1)
before any transfer — no network transfer happens, no invocation is issued
and the filesystem is unchanged. -/
theorem empty_plan_fatal (net : String → String) (exec : List String → Nat)
    (fs : String → Option String) (lines : List String)
    (lang archPath archToken : String) (dryRun extend preserve : Bool)
    (h : matchFound lines lang archPath archToken = []) :
    mainRun net exec fs lines lang archPath archToken dryRun extend preserve =
      { fs := fs, transfers := 0, invoked := [], exit := 1 } := by
  simp [mainRun, h]

/-- Witness for C4 at a manifest with a single non-matching reference. -/
theorem empty_plan_fatal_witness :
    matchFound [("https://host/notes/readme.txt")] ("fr-fr") ("x64") ("amd64") = [] ∧
      mainRun (fun _ => ("")) (fun _ => 0) (fun _ => none)
        [("https://host/notes/readme.txt")] ("fr-fr") ("x64") ("amd64") false true true =
        { fs := fun _ => none, transfers := 0, invoked := [], exit := 1 } :=
  ⟨by decide,
   empty_plan_fatal (fun _ => ("")) (fun _ => 0) (fun _ => none)
     [("https://host/notes/readme.txt")] ("fr-fr") ("x64") ("amd64") false true true (by decide)⟩

/-- C5: `download_file` returns at once when the destination is already
present — the filesystem is returned unchanged and no network transfer is
opened — and consequently a second run of the transfer loop over the same
plan performs zero network transfers. -/
theorem transfer_idempotent (net : String → String) (fs fs0 : String → Option String)
    (url dest c : String) (plan : List String)
    (h : fs dest = some c) :
    download_file net fs url dest = (fs, 0) ∧
      (transferAll net (transferAll net fs0 plan).fs plan).transfers = 0 := by
  refine ⟨download_file_exists h, ?_⟩
  exact transferAll_zero net plan _ (fun u hu => transferAll_sets net plan fs0 u hu)

/-- Witness for C5 at a concrete one-entry plan and a pre-populated
destination. -/
theorem transfer_idempotent_witness :
    (fun p => if p = ("downloads/cab/a.cab") then some ("data") else none)
        ("downloads/cab/a.cab") = some ("data") ∧
      (download_file (fun _ => ("data"))
          (fun p => if p = ("downloads/cab/a.cab") then some ("data") else none)
          ("http://h/a.cab") ("downloads/cab/a.cab") =
        ((fun p => if p = ("downloads/cab/a.cab") then some ("data") else none), 0) ∧
      (transferAll (fun _ => ("data"))
          (transferAll (fun _ => ("data")) (fun _ => none) [("http://h/a.cab")]).fs
          [("http://h/a.cab")]).transfers = 0) :=
  ⟨by decide,
   transfer_idempotent (fun _ => ("data"))
     (fun p => if p = ("downloads/cab/a.cab") then some ("data") else none)
     (fun _ => none) ("http://h/a.cab") ("downloads/cab/a.cab") ("data")
     [("http://h/a.cab")] (by decide)⟩

/-- C7: with `extendExistingList = false` the locale applier builds the
replace-mode command — a single-entry user language list containing only
the language tag, set as UI override and system locale — and the
`preserveKeyboards` flag has no effect on the command built. -/
theorem replace_mode_ignores_preserve (lang : String) (preserve : Bool) :
    psLocale lang false preserve =
      "Set-WinUILanguageOverride -Language " ++ lang ++
        "; $list = New-WinUserLanguageList \x27" ++ lang ++
        "\x27; Set-WinUserLanguageList $list -Force; Set-WinSystemLocale -SystemLocale " ++ lang ∧
      psLocale lang false preserve = psLocale lang false true ∧
      localeCmd lang false preserve = localeCmd lang false true :=
  ⟨rfl, rfl, rfl⟩

/-- C3: a manifest containing the French x64 client-language-pack cabinet
yields exactly one plan entry for it, classified by the language-pack
cabinet rule, under the x64 selector; under the arm64 selector the same
manifest yields no entry at all. -/
theorem clientpack_match_x64_not_arm64 :
    installPlan
        [("https://host/a/readme.txt"),
         ("https://dl.host/prod/Microsoft-Windows-Client-Language-Pack_x64_fr-fr.cab"),
         ("https://host/b/setup.exe")] ("fr-fr") ("x64") ("amd64") =
      [(("https://dl.host/prod/Microsoft-Windows-Client-Language-Pack_x64_fr-fr.cab"),
        ArtifactKind.ExperienceCab)] ∧
      installPlan
        [("https://host/a/readme.txt"),
         ("https://dl.host/prod/Microsoft-Windows-Client-Language-Pack_x64_fr-fr.cab"),
         ("https://host/b/setup.exe")] ("fr-fr") ("arm64") ("arm64") = [] := by
  decide

/-- C6: with the dry-run flag set (and a non-empty plan reaching the
transfer stage), the run halts right after the transfers: no external
invocation is issued and the process exits 0, a normal completion. -/
theorem dry_run_clean_halt (net : String → String) (exec : List String → Nat)
    (fs : String → Option String) (lines : List String)
    (lang archPath archToken : String) (extend preserve : Bool)
    (h : matchFound lines lang archPath archToken ≠ []) :
    mainRun net exec fs lines lang archPath archToken true extend preserve =
      { fs := (transferOut net fs lines lang archPath archToken).fs,
        transfers := (transferOut net fs lines lang archPath archToken).transfers,
        invoked := [], exit := 0 } := by
  simp [mainRun, transferOut, List.isEmpty_iff, h]

/-- Witness for C6 at a one-cabinet manifest. -/
theorem dry_run_clean_halt_witness :
    matchFound [("http://h/Microsoft-Windows-Client-Language-Pack_x64_fr-fr.cab")]
        ("fr-fr") ("x64") ("amd64") ≠ [] ∧
      mainRun (fun _ => ("")) (fun _ => 0) (fun _ => none)
        [("http://h/Microsoft-Windows-Client-Language-Pack_x64_fr-fr.cab")]
        ("fr-fr") ("x64") ("amd64") true true true =
      { fs := (transferOut (fun _ => ("")) (fun _ => none)
          [("http://h/Microsoft-Windows-Client-Language-Pack_x64_fr-fr.cab")]
          ("fr-fr") ("x64") ("amd64")).fs,
        transfers := (transferOut (fun _ => ("")) (fun _ => none)
          [("http://h/Microsoft-Windows-Client-Language-Pack_x64_fr-fr.cab")]
          ("fr-fr") ("x64") ("amd64")).transfers,
        invoked := [], exit := 0 } :=
  ⟨by decide,
   dry_run_clean_halt (fun _ => ("")) (fun _ => 0) (fun _ => none)
     [("http://h/Microsoft-Windows-Client-Language-Pack_x64_fr-fr.cab")]
     ("fr-fr") ("x64") ("amd64") true true (by decide)⟩

/-- C1: in a non-dry run, if the cabinets before index `i` install cleanly
and the `i`-th DISM invocation exits non-zero, the invocations issued are
exactly the first `i+1` DISM commands — no later cabinet, no provisioning
invocation and no locale invocation is ever issued — and the process exits
with the non-zero code 1. -/
theorem cab_failure_halts (net : String → String) (exec : List String → Nat)
    (fs : String → Option String) (lines : List String)
    (lang archPath archToken : String) (extend preserve : Bool) (i : Nat)
    (hi : i < (transferOut net fs lines lang archPath archToken).cab.length)
    (hprev : ∀ cabfile ∈ (transferOut net fs lines lang archPath archToken).cab.take i,
      exec (dismCmd cabfile) = 0)
    (hfail : exec (dismCmd
      ((transferOut net fs lines lang archPath archToken).cab.get ⟨i, hi⟩)) ≠ 0) :
    (mainRun net exec fs lines lang archPath archToken false extend preserve).invoked =
        (((transferOut net fs lines lang archPath archToken).cab.take (i+1)).map dismCmd) ∧
      (mainRun net exec fs lines lang archPath archToken false extend preserve).exit = 1 ∧
      (∀ lep lic, provisionLicenseCmd lep lic ∉
        (mainRun net exec fs lines lang archPath archToken false extend preserve).invoked) ∧
      (∀ lep, provisionSkipCmd lep ∉
        (mainRun net exec fs lines lang archPath archToken false extend preserve).invoked) ∧
      localeCmd lang extend preserve ∉
        (mainRun net exec fs lines lang archPath archToken false extend preserve).invoked ∧
      loginCmd lang ∉
        (mainRun net exec fs lines lang archPath archToken false extend preserve).invoked := by
  set t := transferOut net fs lines lang archPath archToken with ht
  have hne : matchFound lines lang archPath archToken ≠ [] := by
    intro h0
    have hcabnil : t.cab = [] := by
      rw [ht]
      unfold transferOut
      rw [h0]
      rfl
    rw [hcabnil] at hi
    simp at hi
  have hmain := mainRun_run_eq net exec fs lines lang archPath archToken extend preserve hne
  have hsplit : t.cab = t.cab.take i ++ t.cab.get ⟨i, hi⟩ :: t.cab.drop (i+1) := by
    rw [List.get_eq_getElem]
    conv_lhs => rw [← List.take_append_drop i t.cab]
    congr 1
    exact List.drop_eq_getElem_cons hi
  have hplan : plannedCmds t.cab t.appx lang extend preserve =
      (t.cab.take i).map dismCmd ++ dismCmd (t.cab.get ⟨i, hi⟩) ::
        ((t.cab.drop (i+1)).map dismCmd ++
          (provCmds t.appx ++ [localeCmd lang extend preserve, loginCmd lang])) := by
    unfold plannedCmds
    conv_lhs => rw [hsplit]
    simp only [List.map_append, List.map_cons, List.append_assoc, List.cons_append]
  have hpre : ∀ a ∈ (t.cab.take i).map dismCmd, exec a = 0 := by
    intro a ha
    obtain ⟨cabfile, hcf, rfl⟩ := List.mem_map.mp ha
    exact hprev cabfile hcf
  have hrun : runSeq exec (plannedCmds t.cab t.appx lang extend preserve) =
      ((t.cab.take i).map dismCmd ++ [dismCmd (t.cab.get ⟨i, hi⟩)], false) := by
    rw [hplan]
    exact runSeq_stop hfail _ _ hpre
  have htake : (t.cab.take i).map dismCmd ++ [dismCmd (t.cab.get ⟨i, hi⟩)] =
      (t.cab.take (i+1)).map dismCmd := by
    rw [List.get_eq_getElem]
    rw [← List.take_concat_get t.cab i hi, List.concat_eq_append, List.map_append]
    rfl
  have hinv : (mainRun net exec fs lines lang archPath archToken false extend preserve).invoked =
      (t.cab.take (i+1)).map dismCmd := by
    rw [hmain]
    show (runSeq exec (plannedCmds t.cab t.appx lang extend preserve)).1 = _
    rw [hrun]
    exact htake
  have hexit : (mainRun net exec fs lines lang archPath archToken false extend preserve).exit = 1 := by
    rw [hmain]
    show (if (runSeq exec (plannedCmds t.cab t.appx lang extend preserve)).2 then 0 else 1) = 1
    rw [hrun]
    rfl
  have hnotdism : ∀ cmd : List String, cmd.head? = some ("powershell") →
      cmd ∉ (t.cab.take (i+1)).map dismCmd := by
    intro cmd hhd hmem
    obtain ⟨cabfile, _, rfl⟩ := List.mem_map.mp hmem
    simp [dismCmd] at hhd
  refine ⟨hinv, hexit, ?_, ?_, ?_, ?_⟩
  · intro lep lic
    rw [hinv]
    exact hnotdism _ rfl
  · intro lep
    rw [hinv]
    exact hnotdism _ rfl
  · rw [hinv]
    exact hnotdism _ rfl
  · rw [hinv]
    exact hnotdism _ rfl

/-- Witness for C1: a two-cabinet plan whose second DISM invocation fails;
exactly the two DISM commands are issued and the exit code is 1. -/
theorem cab_failure_halts_witness :
    (mainRun (fun _ => (""))
        (fun c => if c = dismCmd ("downloads/cab/Microsoft-Windows-Client-Language-Pack_x64_fr-fr.cab") then 0 else 1)
        (fun _ => none)
        [("http://h/Microsoft-Windows-Client-Language-Pack_x64_fr-fr.cab"),
         ("http://h/Microsoft-Windows-LanguageFeatures-Basic-fr-fr-Package~31bf3856ad364e35~amd64~~.cab")]
        ("fr-fr") ("x64") ("amd64") false true true).invoked =
      [dismCmd ("downloads/cab/Microsoft-Windows-Client-Language-Pack_x64_fr-fr.cab"),
       dismCmd ("downloads/cab/Microsoft-Windows-LanguageFeatures-Basic-fr-fr-Package~31bf3856ad364e35~amd64~~.cab")] ∧
    (mainRun (fun _ => (""))
        (fun c => if c = dismCmd ("downloads/cab/Microsoft-Windows-Client-Language-Pack_x64_fr-fr.cab") then 0 else 1)
        (fun _ => none)
        [("http://h/Microsoft-Windows-Client-Language-Pack_x64_fr-fr.cab"),
         ("http://h/Microsoft-Windows-LanguageFeatures-Basic-fr-fr-Package~31bf3856ad364e35~amd64~~.cab")]
        ("fr-fr") ("x64") ("amd64") false true true).exit = 1 := by
  have hiW : 1 < (transferOut (fun _ => (""))
      (fun _ => none)
      [("http://h/Microsoft-Windows-Client-Language-Pack_x64_fr-fr.cab"),
       ("http://h/Microsoft-Windows-LanguageFeatures-Basic-fr-fr-Package~31bf3856ad364e35~amd64~~.cab")]
      ("fr-fr") ("x64") ("amd64")).cab.length := by decide
  have hget : (transferOut (fun _ => (""))
      (fun _ => none)
      [("http://h/Microsoft-Windows-Client-Language-Pack_x64_fr-fr.cab"),
       ("http://h/Microsoft-Windows-LanguageFeatures-Basic-fr-fr-Package~31bf3856ad364e35~amd64~~.cab")]
      ("fr-fr") ("x64") ("amd64")).cab.get ⟨1, hiW⟩ =
      ("downloads/cab/Microsoft-Windows-LanguageFeatures-Basic-fr-fr-Package~31bf3856ad364e35~amd64~~.cab") := by
    rfl
  have hfailW : (fun c => if c = dismCmd ("downloads/cab/Microsoft-Windows-Client-Language-Pack_x64_fr-fr.cab") then 0 else 1)
      (dismCmd ((transferOut (fun _ => (""))
        (fun _ => none)
        [("http://h/Microsoft-Windows-Client-Language-Pack_x64_fr-fr.cab"),
         ("http://h/Microsoft-Windows-LanguageFeatures-Basic-fr-fr-Package~31bf3856ad364e35~amd64~~.cab")]
        ("fr-fr") ("x64") ("amd64")).cab.get ⟨1, hiW⟩)) ≠ 0 := by
    rw [hget]
    decide
  have h := cab_failure_halts (fun _ => (""))
    (fun c => if c = dismCmd ("downloads/cab/Microsoft-Windows-Client-Language-Pack_x64_fr-fr.cab") then 0 else 1)
    (fun _ => none)
    [("http://h/Microsoft-Windows-Client-Language-Pack_x64_fr-fr.cab"),
     ("http://h/Microsoft-Windows-LanguageFeatures-Basic-fr-fr-Package~31bf3856ad364e35~amd64~~.cab")]
    ("fr-fr") ("x64") ("amd64") true true 1 hiW (by decide) hfailW
  exact ⟨h.1.trans (by decide), h.2.1⟩

/-- C8: in a non-dry run in which every invocation succeeds, when an
experience-pack artifact is among the downloaded package artifacts the
matching provisioning invocation is issued (license form when a license
file is present, skip-license form otherwise); when none is present, the
provisioning stage issues nothing and the run still reaches the locale
invocations. -/
theorem experience_pack_provisioning (net : String → String) (exec : List String → Nat)
    (fs : String → Option String) (lines : List String)
    (lang archPath archToken : String) (extend preserve : Bool)
    (hne : matchFound lines lang archPath archToken ≠ [])
    (hok : ∀ c, exec c = 0) :
    (∀ lep, lepOf (transferOut net fs lines lang archPath archToken).appx = some lep →
      (∀ lic, licOf (transferOut net fs lines lang archPath archToken).appx = some lic →
        provisionLicenseCmd lep lic ∈
          (mainRun net exec fs lines lang archPath archToken false extend preserve).invoked) ∧
      (licOf (transferOut net fs lines lang archPath archToken).appx = none →
        provisionSkipCmd lep ∈
          (mainRun net exec fs lines lang archPath archToken false extend preserve).invoked)) ∧
    (lepOf (transferOut net fs lines lang archPath archToken).appx = none →
      provCmds (transferOut net fs lines lang archPath archToken).appx = [] ∧
      (mainRun net exec fs lines lang archPath archToken false extend preserve).invoked =
        (transferOut net fs lines lang archPath archToken).cab.map dismCmd ++
          [localeCmd lang extend preserve, loginCmd lang]) := by
  set t := transferOut net fs lines lang archPath archToken with ht
  have hmain := mainRun_run_eq net exec fs lines lang archPath archToken extend preserve hne
  have hinv : (mainRun net exec fs lines lang archPath archToken false extend preserve).invoked =
      plannedCmds t.cab t.appx lang extend preserve := by
    rw [hmain]
    show (runSeq exec (plannedCmds t.cab t.appx lang extend preserve)).1 = _
    rw [runSeq_all_zero _ (fun c _ => hok c)]
  refine ⟨?_, ?_⟩
  · intro lep hlep
    refine ⟨?_, ?_⟩
    · intro lic hlic
      rw [hinv]
      simp [plannedCmds, provCmds, hlep, hlic]
    · intro hlic
      rw [hinv]
      simp [plannedCmds, provCmds, hlep, hlic]
  · intro hlep
    refine ⟨by simp [provCmds, hlep], ?_⟩
    rw [hinv]
    simp [plannedCmds, provCmds, hlep]

/-- Witness for C8: an experience pack together with its license file;
the license-form provisioning invocation is issued. -/
theorem experience_pack_provisioning_witness :
    provisionLicenseCmd ("downloads/appx/LanguageExperiencePack.fr-FR.Neutral.appx")
        ("downloads/appx/License.xml") ∈
      (mainRun (fun _ => ("")) (fun _ => 0) (fun _ => none)
        [("http://h/LocalExperiencePack/fr-fr/LanguageExperiencePack.fr-FR.Neutral.appx"),
         ("http://h/LocalExperiencePack/fr-fr/License.xml")]
        ("fr-fr") ("x64") ("amd64") false true true).invoked := by
  have h := experience_pack_provisioning (fun _ => ("")) (fun _ => 0) (fun _ => none)
    [("http://h/LocalExperiencePack/fr-fr/LanguageExperiencePack.fr-FR.Neutral.appx"),
     ("http://h/LocalExperiencePack/fr-fr/License.xml")]
    ("fr-fr") ("x64") ("amd64") true true (by decide) (fun c => rfl)
  exact (h.1 ("downloads/appx/LanguageExperiencePack.fr-FR.Neutral.appx") (by decide)).1
    ("downloads/appx/License.xml") (by decide)

/-- C9: a reference that passes the three feature-cabinet containment
conditions and contains two distinct feature keywords is appended to the
plan exactly once — the keyword scan stops at its first hit instead of
appending once per keyword. -/
theorem fod_multi_keyword_single_append (lines : List String)
    (lang archPath archToken line : String)
    (hwinpe : is_winpe (decodeLower line) = false)
    (hseg : containsSub (decodeLower line) ("/localexperiencepack/" ++ lang ++ "/") = false)
    (hr2 : containsSub (decodeLower line)
      ("microsoft-windows-client-language-pack_" ++ archPath ++ "_" ++ lang ++ ".cab") = false)
    (h3a : containsSub (decodeLower line) ("microsoft-windows-languagefeatures-") = true)
    (h3b : containsSub (decodeLower line) ("-" ++ lang ++ "-package") = true)
    (h3c : containsSub (decodeLower line) ("~" ++ archToken ++ "~~.cab") = true)
    (k1 k2 : String) (hk1 : k1 ∈ FOD_FEATURE_KEYWORDS) (hk2 : k2 ∈ FOD_FEATURE_KEYWORDS)
    (hkne : k1 ≠ k2)
    (hc1 : containsSub (decodeLower line) k1 = true)
    (hc2 : containsSub (decodeLower line) k2 = true)
    (hcount : lines.count line = 1) :
    (matchFound lines lang archPath archToken).count line = 1 := by
  have hkeep : keepLine lang archPath archToken line = true := by
    simp [keepLine, classify?, hwinpe, hseg, hr2, h3a, h3b, h3c,
      fodFirstHit_of_mem hk1 hc1]
  calc (matchFound lines lang archPath archToken).count line
      = lines.count line := by
        unfold matchFound
        exact List.count_filter hkeep
    _ = 1 := hcount

/-- Witness for C9: a feature cabinet whose decoded form contains both the
basic and the OCR keyword is planned exactly once. -/
theorem fod_multi_keyword_single_append_witness :
    containsSub (decodeLower ("https://cdn.host/fod/Microsoft-Windows-LanguageFeatures-Basic-languagefeatures-ocr-fr-fr-Package~31bf3856ad364e35~amd64~~.cab"))
        ("languagefeatures-basic-") = true ∧
    containsSub (decodeLower ("https://cdn.host/fod/Microsoft-Windows-LanguageFeatures-Basic-languagefeatures-ocr-fr-fr-Package~31bf3856ad364e35~amd64~~.cab"))
        ("languagefeatures-ocr-") = true ∧
    (matchFound [("https://cdn.host/fod/Microsoft-Windows-LanguageFeatures-Basic-languagefeatures-ocr-fr-fr-Package~31bf3856ad364e35~amd64~~.cab")]
        ("fr-fr") ("x64") ("amd64")).count
      ("https://cdn.host/fod/Microsoft-Windows-LanguageFeatures-Basic-languagefeatures-ocr-fr-fr-Package~31bf3856ad364e35~amd64~~.cab") = 1 :=
  ⟨by decide, by decide,
   fod_multi_keyword_single_append
     [("https://cdn.host/fod/Microsoft-Windows-LanguageFeatures-Basic-languagefeatures-ocr-fr-fr-Package~31bf3856ad364e35~amd64~~.cab")]
     ("fr-fr") ("x64") ("amd64")
     ("https://cdn.host/fod/Microsoft-Windows-LanguageFeatures-Basic-languagefeatures-ocr-fr-fr-Package~31bf3856ad364e35~amd64~~.cab")
     (by decide) (by decide) (by decide) (by decide) (by decide) (by decide)
     ("languagefeatures-basic-") ("languagefeatures-ocr-") (by decide) (by decide)
     (by decide) (by decide) (by decide) (by decide)⟩

end LangSwitch
